import Mathlib

/-!
Shallow embedding of the foodgram backend (recipes app) for checking its
natural-language specification.  Database tables are modelled as lists of
rows, Django ORM queries as list operations, and each HTTP-level error
(NotFound / the duplicate-insert rejection the spec calls Conflict /
ValidationError) as a constructor of an error type.  Function names follow
the Python source where Lean allows it.
-/

/-- An `Ingredient` row: catalog reference data (recipes/models.py). -/
structure Ingredient where
  id : Nat
  name : String
  measurement_unit : String
deriving DecidableEq

/-- An `IngredientInRecipe` row: one ingredient line of a recipe, with its
amount (recipes/models.py).  Amounts are integers so that the source's
`value <= 0` check is meaningful. -/
structure IngredientInRecipe where
  recipe : Nat
  ingredient : Nat
  amount : Int
deriving DecidableEq

/-- One validated item of the write payload's ingredient list:
the dict with keys `id` and `amount` accepted by
`IngredientInRecipeSerializer` (api/serializers/ingredient_serializers.py). -/
structure IngredientItem where
  id : Nat
  amount : Int
deriving DecidableEq

/-- The tag-id list and ingredient list of a recipe write payload
(`RecipeWriteSerializer`, api/serializers/recipe_serializers.py).  The other
fields (name, text, image, cooking_time) play no role in the claims. -/
structure RecipePayload where
  tags : List Nat
  ingredients : List IngredientItem
deriving DecidableEq

/-- The database state used by the shopping-list consolidator:
the ingredient catalog, the `IngredientInRecipe` rows and the
`ShoppingCart` rows, the latter as (user id, recipe id) pairs. -/
structure Db where
  ingredients : List Ingredient
  lines : List IngredientInRecipe
  cart : List (Nat × Nat)
deriving DecidableEq

/-- Error outcomes of a relationship add/remove request:
`notFound` is HTTP 404 (raised by `get_object_or_404`), `conflict` is the
rejection of a duplicate (user, target) insert (the spec's error-taxonomy
name for the `ValidationError` raised by the duplicate check in
`FavouriteSerializer.validate`, `ShoppingCartSerializer.validate` and
`SubscriptionSerializer.validate`), `validationError` covers the remaining
serializer validation failures (nonexistent recipe id, self-subscription). -/
inductive RelErr where
  | notFound
  | conflict
  | validationError
deriving DecidableEq

/-- Error outcomes of recipe write-payload validation: `notFound` is the
`Http404` raised by `get_object_or_404(Ingredient, ...)`, `validationError`
covers every `serializers.ValidationError`. -/
inductive WriteErr where
  | notFound
  | validationError
deriving DecidableEq

section GroupSum

variable {K : Type} [DecidableEq K]

/-- Fold one (key, amount) entry into a grouped accumulator: if the key is
already present its amount is increased, otherwise the entry is appended.
This is the accumulator step of the SQL
`values(name, unit).annotate(Sum(amount))` grouping performed by
`RecipeViewSet.download_shopping_cart`. -/
def addEntry : List (K × Int) → K × Int → List (K × Int)
  | [], e => [e]
  | a :: rest, e =>
      if a.1 = e.1 then (a.1, a.2 + e.2) :: rest else a :: addEntry rest e

/-- Group a list of (key, amount) entries by key, summing amounts within
each group; keys appear in first-occurrence order. -/
def groupSum (es : List (K × Int)) : List (K × Int) :=
  es.foldl addEntry []

/-- Look up the amount recorded for a key in a grouped list. -/
def lookupAmt : List (K × Int) → K → Option Int
  | [], _ => none
  | e :: rest, k => if e.1 = k then some e.2 else lookupAmt rest k

/-- The specification-side total: the sum of the amounts of all entries
carrying a given key. -/
def keyAmount (es : List (K × Int)) (k : K) : Int :=
  ((es.filter (fun e => decide (e.1 = k))).map Prod.snd).sum

end GroupSum


/-- The recipe ids in a user's shopping cart:
`user.shopping_cart` / `recipe__shopping_cart__user=request.user`. -/
def inShoppingCart (db : Db) (u r : Nat) : Bool :=
  db.cart.any (fun p => p.1 == u && p.2 == r)

/-- The `IngredientInRecipe` rows selected by
`IngredientInRecipe.objects.filter(recipe__shopping_cart__user=request.user)`
in `RecipeViewSet.download_shopping_cart`. -/
def cartLines (db : Db) (u : Nat) : List IngredientInRecipe :=
  db.lines.filter (fun l => inShoppingCart db u l.recipe)

/-- The denormalized grouping key of an ingredient line:
`(ingredient__name, ingredient__measurement_unit)`, obtained by following
the line's foreign key into the ingredient catalog. -/
def lineKey (db : Db) (l : IngredientInRecipe) : Option (String × String) :=
  (db.ingredients.find? (fun i => i.id == l.ingredient)).map
    (fun i => (i.name, i.measurement_unit))

/-- The (key, amount) entries fed into the SQL grouping: one entry per cart
ingredient line, keyed by the ingredient's name/unit pair. -/
def cartEntries (db : Db) (u : Nat) : List ((String × String) × Int) :=
  (cartLines db u).filterMap
    (fun l => (lineKey db l).map (fun k => (k, l.amount)))

/-- The shopping-list consolidator:
`values('ingredient__name', 'ingredient__measurement_unit')
.annotate(amount=Sum('amount'))` in `RecipeViewSet.download_shopping_cart`,
modelled as a group-by-key-and-sum over the cart's ingredient lines. -/
def consolidate (db : Db) (u : Nat) : List ((String × String) × Int) :=
  groupSum (cartEntries db u)

/-- The total amount the claim expects for a name/unit pair: the sum of the
amounts of all cart ingredient lines whose ingredient carries exactly that
name and measurement unit. -/
def totalAmount (db : Db) (u : Nat) (k : String × String) : Int :=
  (((cartLines db u).filter (fun l => lineKey db l == some k)).map
    (fun l => l.amount)).sum

/-- Outcome of `GET /recipes/download_shopping_cart`: either the JSON error
body returned for an empty cart, or a PDF rendering of the consolidated
lines. -/
inductive CartDownload where
  | emptyError
  | pdf (lines : List ((String × String) × Int))
deriving DecidableEq

/-- `RecipeViewSet.download_shopping_cart`: if `user.shopping_cart` is empty
it returns the JSON error response, otherwise it renders the consolidated
ingredient lines into a PDF. -/
def download_shopping_cart (db : Db) (u : Nat) : CartDownload :=
  if db.cart.any (fun p => p.1 == u) then .pdf (consolidate db u)
  else .emptyError

/-- `RecipeViewSet.add_to_favorite`: validates a `FavouriteSerializer` over
a (user, recipe) pair and saves it.  Field validation first checks the
recipe id against `Recipe.objects.all()` (a nonexistent id is a
`ValidationError`); `FavouriteSerializer.validate` then rejects an already
present (user, recipe) pair; otherwise the row is inserted. -/
def add_to_favorite (recipes : List Nat) (favs : List (Nat × Nat))
    (u rid : Nat) : Except RelErr (List (Nat × Nat)) :=
  if rid ∈ recipes then
    if (u, rid) ∈ favs then .error .conflict
    else .ok (favs ++ [(u, rid)])
  else .error .validationError

/-- `RecipeViewSet.add_to_shopping_cart`: same shape as the favorite add,
with `ShoppingCartSerializer.validate` doing the duplicate check. -/
def add_to_shopping_cart (recipes : List Nat) (cart : List (Nat × Nat))
    (u rid : Nat) : Except RelErr (List (Nat × Nat)) :=
  if rid ∈ recipes then
    if (u, rid) ∈ cart then .error .conflict
    else .ok (cart ++ [(u, rid)])
  else .error .validationError

/-- `RecipeViewSet.delete_from_favorite`: deletes whatever
`Favourite.objects.filter(user=user, recipe__id=pk)` matches and returns
HTTP 204 unconditionally; the status code is paired with the new table. -/
def delete_from_favorite (favs : List (Nat × Nat)) (u rid : Nat) :
    Nat × List (Nat × Nat) :=
  (204, favs.filter (fun p => !(p.1 == u && p.2 == rid)))

/-- `RecipeViewSet.delete_from_shopping_cart`: deletes the matching
`ShoppingCart` rows and returns HTTP 204 unconditionally. -/
def delete_from_shopping_cart (cart : List (Nat × Nat)) (u rid : Nat) :
    Nat × List (Nat × Nat) :=
  (204, cart.filter (fun p => !(p.1 == u && p.2 == rid)))

/-- The create branch of `UserProfileViewSet.manage_subscription` (reached
from `subscribe` after `get_object_or_404(User, id=...)`, hence `notFound`
for a nonexistent target): `SubscriptionSerializer.validate` rejects an
existing (user, author) pair first, then a self-subscription, and only then
is `Subscription.objects.create` executed. -/
def manage_subscription_create (users : List Nat) (subs : List (Nat × Nat))
    (u a : Nat) : Except RelErr (List (Nat × Nat)) :=
  if a ∈ users then
    if (u, a) ∈ subs then .error .conflict
    else if u = a then .error .validationError
    else .ok (subs ++ [(u, a)])
  else .error .notFound

/-- The delete branch of `UserProfileViewSet.manage_subscription`:
`get_object_or_404(Subscription, user=..., author=...)` raises NotFound
when the pair is absent, otherwise that row is deleted and 204 returned. -/
def manage_subscription_delete (users : List Nat) (subs : List (Nat × Nat))
    (u a : Nat) : Except RelErr (List (Nat × Nat)) :=
  if a ∈ users then
    if (u, a) ∈ subs then .ok (subs.erase (u, a))
    else .error .notFound
  else .error .notFound

/-- Subscription tables reachable through the API: starting from the empty
table, each step is a successful subscribe or unsubscribe request. -/
inductive SubReachable (users : List Nat) : List (Nat × Nat) → Prop where
  | nil : SubReachable users []
  | create (u a : Nat) (s s' : List (Nat × Nat)) :
      SubReachable users s →
      manage_subscription_create users s u a = .ok s' →
      SubReachable users s'
  | del (u a : Nat) (s s' : List (Nat × Nat)) :
      SubReachable users s →
      manage_subscription_delete users s u a = .ok s' →
      SubReachable users s'

/-- `IngredientInRecipeSerializer.validate_amount`: amounts of at most 0
are rejected with a `ValidationError`. -/
def validate_amount (v : Int) : Except WriteErr Int :=
  if v ≤ 0 then .error .validationError else .ok v

/-- The loop body of `RecipeWriteSerializer.validate_ingredients`: for each
item, `get_object_or_404(Ingredient, id=item['id'])` (NotFound when the id
is not in the catalog), then a duplicate-id check against the `seen` set. -/
def validate_ingredients_go (cat : List Ingredient) (seen : List Nat) :
    List IngredientItem → Except WriteErr Unit
  | [] => .ok ()
  | it :: rest =>
      match cat.find? (fun i => i.id == it.id) with
      | none => .error .notFound
      | some ing =>
          if ing.id ∈ seen then .error .validationError
          else validate_ingredients_go cat (ing.id :: seen) rest

/-- `RecipeWriteSerializer.validate_tags`: a tag id occurring more than
once (the `Counter` check) is a `ValidationError`. -/
def validate_tags (tags : List Nat) : Except WriteErr Unit :=
  if tags.any (fun t => 1 < tags.count t) then .error .validationError
  else .ok ()

/-- The validation pipeline of `RecipeWriteSerializer` for the tag and
ingredient fields, following the framework's `to_internal_value` order:
fields are processed in `Meta.fields` order, so `ingredients` comes before
`tags`.  The `ingredients` field first runs its own validation — the list
must be non-empty (`allow_empty=False`) and each amount must pass
`validate_amount` (positive) and the 1..32767 bounds the serializer field
inherits from the model's `PositiveSmallIntegerField`; a failure there is
recorded and yields a `ValidationError` (the `validate_ingredients` hook is
then skipped).  With the field clean, the `validate_ingredients` hook runs:
its `get_object_or_404` raises `Http404` (NotFound) which propagates
immediately, before the `tags` field is ever examined, while its
duplicate-id `ValidationError` is recorded — the final answer is then a
`ValidationError` whatever the tag checks add.  Only when the whole
ingredients stage succeeds do the tag checks decide: non-empty list,
every id in the tag catalog (`PrimaryKeyRelatedField`), and the
`validate_tags` duplicate check, each a `ValidationError`.  The
object-level `validate` re-runs the same two hooks and adds nothing new. -/
def run_validation (tagCat : List Nat) (cat : List Ingredient)
    (p : RecipePayload) : Except WriteErr RecipePayload :=
  if p.ingredients.isEmpty then .error .validationError
  else if p.ingredients.any
      (fun it => it.amount ≤ 0 || 32767 < it.amount) then
    .error .validationError
  else
    match validate_ingredients_go cat [] p.ingredients with
    | .error .notFound => .error .notFound
    | .error .validationError => .error .validationError
    | .ok _ =>
        if p.tags.isEmpty then .error .validationError
        else if p.tags.any (fun t => !(tagCat.contains t)) then
          .error .validationError
        else
          match validate_tags p.tags with
          | .error e => .error e
          | .ok _ => .ok p

/-- `RecipeWriteSerializer.create_ingredients_amounts`: bulk-insert one
`IngredientInRecipe` row per payload item for the given recipe. -/
def create_ingredients_amounts (items : List IngredientItem) (rid : Nat)
    (rows : List IngredientInRecipe) : List IngredientInRecipe :=
  rows ++ items.map (fun it => ⟨rid, it.id, it.amount⟩)

/-- `RecipeWriteSerializer.update_ingredients_amounts`:
`IngredientInRecipe.objects.filter(recipe=recipe).delete()` followed by the
same bulk insert — a full replace of the recipe's ingredient lines. -/
def update_ingredients_amounts (items : List IngredientItem) (rid : Nat)
    (rows : List IngredientInRecipe) : List IngredientInRecipe :=
  (rows.filter (fun r => !(r.recipe == rid))) ++
    items.map (fun it => ⟨rid, it.id, it.amount⟩)

/-- The recipe-side state touched by recipe writes: each recipe's tag-id
list (the `tags` many-to-many) and the `IngredientInRecipe` table. -/
structure RecipeStore where
  recipeTags : List (Nat × List Nat)
  rows : List IngredientInRecipe
deriving DecidableEq

/-- `RecipeWriteSerializer.create`: persists the recipe under a fresh id,
associates the payload's tag set via `recipe.tags.set(tags)` and
bulk-inserts the ingredient lines. -/
def create_recipe (st : RecipeStore) (newId : Nat) (p : RecipePayload) :
    RecipeStore :=
  { recipeTags := (newId, p.tags) :: st.recipeTags,
    rows := create_ingredients_amounts p.ingredients newId st.rows }

/-- `RecipeWriteSerializer.update`: `tags.clear()` then `tags.set(tags)`
replaces the tag set, and `update_ingredients_amounts` replaces the
ingredient lines. -/
def update_recipe (st : RecipeStore) (rid : Nat) (p : RecipePayload) :
    RecipeStore :=
  { recipeTags :=
      (rid, p.tags) :: st.recipeTags.filter (fun q => !(q.1 == rid)),
    rows := update_ingredients_amounts p.ingredients rid st.rows }

/-- The tag-id list read back for a recipe. -/
def read_tags (st : RecipeStore) (rid : Nat) : List Nat :=
  match st.recipeTags.find? (fun q => q.1 == rid) with
  | some q => q.2
  | none => []

/-- `RecipeReadSerializer.get_ingredients`:
`recipe.ingredients.values('id', 'name', 'measurement_unit',
amount=F('ingredientinrecipe__amount'))` — one (id, name, unit, amount)
tuple per ingredient line of the recipe, joined with the catalog. -/
def get_ingredients (cat : List Ingredient) (rows : List IngredientInRecipe)
    (rid : Nat) : List (Nat × String × String × Int) :=
  (rows.filter (fun r => r.recipe == rid)).filterMap
    (fun r => (cat.find? (fun i => i.id == r.ingredient)).map
      (fun i => (i.id, i.name, i.measurement_unit, r.amount)))

/-- `RecipeReadSerializer.get_is_favorited`: `False` for an anonymous
requester, otherwise `user.favorites.filter(recipe=recipe).exists()`. -/
def get_is_favorited (favs : List (Nat × Nat)) (requester : Option Nat)
    (rid : Nat) : Bool :=
  match requester with
  | none => false
  | some u => decide ((u, rid) ∈ favs)

/-- `RecipeReadSerializer.get_is_in_shopping_cart`: `False` for an
anonymous requester, otherwise
`user.shopping_cart.filter(recipe=recipe).exists()`. -/
def get_is_in_shopping_cart (cart : List (Nat × Nat))
    (requester : Option Nat) (rid : Nat) : Bool :=
  match requester with
  | none => false
  | some u => decide ((u, rid) ∈ cart)

/-- `RecipeFilter.get_is_favorited` (api/filters.py): only when the value
is true and the requester is authenticated is the queryset narrowed to the
requester's favorited recipes; otherwise it is returned unchanged. -/
def filter_is_favorited (favs : List (Nat × Nat)) (requester : Option Nat)
    (value : Bool) (queryset : List Nat) : List Nat :=
  match requester with
  | some u =>
      if value then queryset.filter (fun r => decide ((u, r) ∈ favs))
      else queryset
  | none => queryset

/-- `RecipeFilter.get_is_in_shopping_cart` (api/filters.py): the same
shape over the shopping-cart relation. -/
def filter_is_in_shopping_cart (cart : List (Nat × Nat))
    (requester : Option Nat) (value : Bool) (queryset : List Nat) :
    List Nat :=
  match requester with
  | some u =>
      if value then queryset.filter (fun r => decide ((u, r) ∈ cart))
      else queryset
  | none => queryset


/-- Decidable equality of request outcomes, used to evaluate the embedded
operations on concrete inputs. -/
instance {ε α : Type} [DecidableEq ε] [DecidableEq α] :
    DecidableEq (Except ε α) := fun x y =>
  match x, y with
  | .ok a, .ok b =>
      if h : a = b then .isTrue (by rw [h])
      else .isFalse (fun hc => h (Except.ok.inj hc))
  | .error a, .error b =>
      if h : a = b then .isTrue (by rw [h])
      else .isFalse (fun hc => h (Except.error.inj hc))
  | .ok _, .error _ => .isFalse (fun hc => Except.noConfusion hc)
  | .error _, .ok _ => .isFalse (fun hc => Except.noConfusion hc)

/-- Concrete database for the consolidation example: two distinct catalog
records both named "Salt" with unit "g", one ingredient line of each in two
different recipes, both recipes in user 7's shopping cart. -/
def dbSalt : Db :=
  { ingredients := [⟨1, "Salt", "g"⟩, ⟨2, "Salt", "g"⟩],
    lines := [⟨10, 1, 5⟩, ⟨11, 2, 3⟩],
    cart := [(7, 10), (7, 11)] }

/-- Concrete database in which user 1's shopping cart is empty (the only
cart row belongs to user 2). -/
def dbEmptyCart : Db :=
  { ingredients := [⟨1, "Salt", "g"⟩],
    lines := [⟨10, 1, 5⟩],
    cart := [(2, 10)] }

section GroupSumTheorems

variable {K : Type} [DecidableEq K]

theorem addEntry_lookup (acc : List (K × Int)) (e : K × Int) (k : K) :
    lookupAmt (addEntry acc e) k =
      if e.1 = k then some ((lookupAmt acc k).getD 0 + e.2)
      else lookupAmt acc k := by
  induction acc with
  | nil =>
      by_cases h : e.1 = k <;> simp [addEntry, lookupAmt, h]
  | cons a rest ih =>
      simp only [addEntry]
      by_cases hae : a.1 = e.1
      · rw [if_pos hae]
        by_cases hk : e.1 = k
        · have hak : a.1 = k := hae.trans hk
          simp [lookupAmt, hak, hk]
        · have hak : ¬ a.1 = k := fun hc => hk (hae.symm.trans hc)
          simp [lookupAmt, hak, hk]
      · rw [if_neg hae]
        by_cases hk : e.1 = k
        · have hak : ¬ a.1 = k := fun hc => hae (hc.trans hk.symm)
          simp [lookupAmt, hak, hk, ih]
        · by_cases hak : a.1 = k
          · simp [lookupAmt, hak, hk]
          · simp [lookupAmt, hak, hk, ih]

theorem keyAmount_nil (k : K) : keyAmount ([] : List (K × Int)) k = 0 := by
  simp [keyAmount]

theorem keyAmount_cons (e : K × Int) (es : List (K × Int)) (k : K) :
    keyAmount (e :: es) k =
      (if e.1 = k then e.2 else 0) + keyAmount es k := by
  by_cases h : e.1 = k <;> simp [keyAmount, h]

theorem foldl_addEntry_lookup (es : List (K × Int)) :
    ∀ (acc : List (K × Int)) (k : K),
      lookupAmt (es.foldl addEntry acc) k =
        if lookupAmt acc k ≠ none ∨ (∃ e ∈ es, e.1 = k) then
          some ((lookupAmt acc k).getD 0 + keyAmount es k)
        else none := by
  induction es with
  | nil =>
      intro acc k
      cases h : lookupAmt acc k <;> simp [h, keyAmount_nil]
  | cons e rest ih =>
      intro acc k
      rw [List.foldl_cons, ih (addEntry acc e) k, addEntry_lookup,
        keyAmount_cons]
      by_cases hk : e.1 = k
      · rw [if_pos hk, if_pos hk]
        have hex : lookupAmt acc k ≠ none ∨ ∃ x ∈ e :: rest, x.1 = k :=
          Or.inr ⟨e, List.mem_cons_self _ _, hk⟩
        rw [if_pos (Or.inl (Option.some_ne_none _)), if_pos hex]
        simp [Int.add_assoc]
      · rw [if_neg hk, if_neg hk]
        have hiff : (lookupAmt acc k ≠ none ∨ ∃ x ∈ rest, x.1 = k) ↔
            (lookupAmt acc k ≠ none ∨ ∃ x ∈ e :: rest, x.1 = k) := by
          refine or_congr Iff.rfl ⟨?_, ?_⟩
          · rintro ⟨x, hx, hxk⟩
            exact ⟨x, List.mem_cons_of_mem _ hx, hxk⟩
          · rintro ⟨x, hx, hxk⟩
            rcases List.mem_cons.1 hx with rfl | hx'
            · exact absurd hxk hk
            · exact ⟨x, hx', hxk⟩
        rw [Int.zero_add]
        exact if_congr hiff rfl rfl

theorem groupSum_lookup (es : List (K × Int)) (k : K) :
    lookupAmt (groupSum es) k =
      if (∃ e ∈ es, e.1 = k) then some (keyAmount es k) else none := by
  have h0 : lookupAmt ([] : List (K × Int)) k = none := rfl
  rw [groupSum, foldl_addEntry_lookup es [] k, h0]
  have hc : ((none : Option Int) ≠ none ∨ ∃ e ∈ es, e.1 = k) ↔
      (∃ e ∈ es, e.1 = k) := by simp
  rw [Option.getD_none, Int.zero_add]
  exact if_congr hc rfl rfl

theorem addEntry_keys_sub (acc : List (K × Int)) (e : K × Int) :
    ∀ k, k ∈ (addEntry acc e).map Prod.fst →
      k ∈ acc.map Prod.fst ∨ k = e.1 := by
  induction acc with
  | nil =>
      intro k hk
      simp [addEntry] at hk
      exact Or.inr hk
  | cons b rb ihb =>
      intro k hk
      simp only [addEntry] at hk
      by_cases hbe : b.1 = e.1
      · rw [if_pos hbe] at hk
        simp only [List.map_cons, List.mem_cons] at hk ⊢
        exact Or.inl hk
      · rw [if_neg hbe] at hk
        simp only [List.map_cons, List.mem_cons] at hk ⊢
        rcases hk with rfl | hk'
        · exact Or.inl (Or.inl rfl)
        · rcases ihb _ hk' with h' | h'
          · exact Or.inl (Or.inr h')
          · exact Or.inr h'

theorem addEntry_keys_nodup (acc : List (K × Int)) (e : K × Int)
    (h : (acc.map Prod.fst).Nodup) :
    ((addEntry acc e).map Prod.fst).Nodup := by
  induction acc with
  | nil => simp [addEntry]
  | cons a rest ih =>
      simp only [List.map_cons, List.nodup_cons] at h
      simp only [addEntry]
      by_cases hae : a.1 = e.1
      · rw [if_pos hae]
        simp only [List.map_cons, List.nodup_cons]
        exact ⟨h.1, h.2⟩
      · rw [if_neg hae]
        simp only [List.map_cons, List.nodup_cons]
        refine ⟨fun hmem => ?_, ih h.2⟩
        rcases addEntry_keys_sub rest e _ hmem with h' | h'
        · exact h.1 h'
        · exact hae h'

theorem groupSum_keys_nodup (es : List (K × Int)) :
    ((groupSum es).map Prod.fst).Nodup := by
  have main : ∀ (acc : List (K × Int)), (acc.map Prod.fst).Nodup →
      ((es.foldl addEntry acc).map Prod.fst).Nodup := by
    induction es with
    | nil => intro acc h; simpa using h
    | cons e rest ih =>
        intro acc h
        exact ih (addEntry acc e) (addEntry_keys_nodup acc e h)
  simpa [groupSum] using main [] (by simp)

theorem mem_iff_lookup {l : List (K × Int)} (h : (l.map Prod.fst).Nodup)
    (k : K) (a : Int) : (k, a) ∈ l ↔ lookupAmt l k = some a := by
  induction l with
  | nil => simp [lookupAmt]
  | cons e rest ih =>
      simp only [List.map_cons, List.nodup_cons] at h
      simp only [lookupAmt]
      by_cases hk : e.1 = k
      · have hnot : (k, a) ∉ rest := by
          intro hmem
          have : k ∈ rest.map Prod.fst := List.mem_map_of_mem Prod.fst hmem
          rw [hk] at h
          exact h.1 this
        rw [if_pos hk]
        constructor
        · intro hmem
          rcases List.mem_cons.1 hmem with heq | hmem'
          · rw [← heq]
          · exact absurd hmem' hnot
        · intro hlook
          have ha : e.2 = a := Option.some.inj hlook
          have he : e = (k, a) := Prod.ext_iff.2 ⟨hk, ha⟩
          rw [he]
          exact List.mem_cons_self _ _
      · rw [if_neg hk, ← ih h.2]
        constructor
        · intro hmem
          rcases List.mem_cons.1 hmem with heq | hmem'
          · exact absurd (congrArg Prod.fst heq).symm hk
          · exact hmem'
        · exact List.mem_cons_of_mem _

end GroupSumTheorems

theorem cartEntries_keyAmount (db : Db) (u : Nat) (k : String × String) :
    keyAmount (cartEntries db u) k = totalAmount db u k := by
  rw [cartEntries, totalAmount]
  induction cartLines db u with
  | nil => simp [keyAmount]
  | cons l rest ih =>
      cases hlk : lineKey db l with
      | none =>
          simp [List.filterMap_cons, List.filter_cons, hlk, ih]
      | some k' =>
          by_cases hkk : k' = k
          · simp [List.filterMap_cons, List.filter_cons, hlk, hkk,
              keyAmount_cons, ih]
          · simp [List.filterMap_cons, List.filter_cons, hlk, hkk,
              keyAmount_cons, ih]

theorem cartEntries_key_exists (db : Db) (u : Nat) (k : String × String) :
    (∃ e ∈ cartEntries db u, e.1 = k) ↔
      (∃ l ∈ cartLines db u, lineKey db l = some k) := by
  constructor
  · rintro ⟨e, he, hek⟩
    rcases List.mem_filterMap.1 he with ⟨l, hl, hfl⟩
    cases hlk : lineKey db l with
    | none => rw [hlk] at hfl; exact absurd hfl (by simp)
    | some k' =>
        rw [hlk] at hfl
        have : e = (k', l.amount) := by
          simpa using hfl.symm
        exact ⟨l, hl, by rw [hlk, ← hek, this]⟩
  · rintro ⟨l, hl, hlk⟩
    exact ⟨(k, l.amount),
      List.mem_filterMap.2 ⟨l, hl, by rw [hlk]; rfl⟩, rfl⟩

theorem manage_subscription_create_ok {users : List Nat}
    {subs s' : List (Nat × Nat)} {u a : Nat}
    (h : manage_subscription_create users subs u a = .ok s') :
    u ≠ a ∧ s' = subs ++ [(u, a)] := by
  simp only [manage_subscription_create] at h
  by_cases h1 : a ∈ users
  · rw [if_pos h1] at h
    by_cases h2 : (u, a) ∈ subs
    · rw [if_pos h2] at h; exact Except.noConfusion h
    · rw [if_neg h2] at h
      by_cases h3 : u = a
      · rw [if_pos h3] at h; exact Except.noConfusion h
      · rw [if_neg h3] at h
        exact ⟨h3, (Except.ok.inj h).symm⟩
  · rw [if_neg h1] at h; exact Except.noConfusion h

theorem manage_subscription_delete_ok {users : List Nat}
    {subs s' : List (Nat × Nat)} {u a : Nat}
    (h : manage_subscription_delete users subs u a = .ok s') :
    s' = subs.erase (u, a) := by
  simp only [manage_subscription_delete] at h
  by_cases h1 : a ∈ users
  · rw [if_pos h1] at h
    by_cases h2 : (u, a) ∈ subs
    · rw [if_pos h2] at h; exact (Except.ok.inj h).symm
    · rw [if_neg h2] at h; exact Except.noConfusion h
  · rw [if_neg h1] at h; exact Except.noConfusion h

theorem subreachable_no_self {users : List Nat} {s : List (Nat × Nat)}
    (h : SubReachable users s) : ∀ p ∈ s, p.1 ≠ p.2 := by
  induction h with
  | nil =>
      intro p hp
      exact absurd hp (List.not_mem_nil p)
  | create u a s s' _ hok ih =>
      rcases manage_subscription_create_ok hok with ⟨hne, rfl⟩
      intro p hp
      rcases List.mem_append.1 hp with hp' | hp'
      · exact ih p hp'
      · rw [List.mem_singleton.1 hp']
        exact hne
  | del u a s s' _ hok ih =>
      have hs := manage_subscription_delete_ok hok
      subst hs
      intro p hp
      exact ih p (List.mem_of_mem_erase hp)

/-- C9: for an anonymous (unauthenticated) requester,
`RecipeReadSerializer.get_is_favorited` and
`RecipeReadSerializer.get_is_in_shopping_cart` both report `false`,
regardless of which favorite or shopping-cart records exist. -/
theorem anonymous_flags_false (favs cart : List (Nat × Nat)) (rid : Nat) :
    get_is_favorited favs none rid = false ∧
    get_is_in_shopping_cart cart none rid = false :=
  ⟨rfl, rfl⟩

/-- C10: whenever the supplied filter value is false or the requester is
anonymous, `RecipeFilter.get_is_favorited` and
`RecipeFilter.get_is_in_shopping_cart` return the queryset unchanged —
a false value never selects the complement. -/
theorem filter_false_or_anonymous_identity (favs cart : List (Nat × Nat))
    (requester : Option Nat) (value : Bool) (qs : List Nat)
    (h : value = false ∨ requester = none) :
    filter_is_favorited favs requester value qs = qs ∧
    filter_is_in_shopping_cart cart requester value qs = qs := by
  rcases h with rfl | rfl
  · cases requester <;>
      simp [filter_is_favorited, filter_is_in_shopping_cart]
  · exact ⟨rfl, rfl⟩

/-- Witness for C10 at a concrete authenticated requester with a false
value: the queryset comes back unchanged. -/
theorem filter_false_or_anonymous_identity_witness :
    filter_is_favorited [(1, 2)] (some 1) false [2, 3] = [2, 3] ∧
    filter_is_in_shopping_cart [(1, 2)] (some 1) false [2, 3] = [2, 3] :=
  filter_false_or_anonymous_identity [(1, 2)] [(1, 2)] (some 1) false [2, 3]
    (Or.inl rfl)

/-- C7: for a user whose shopping cart is empty,
`RecipeViewSet.download_shopping_cart` returns the JSON error body and
produces no PDF document. -/
theorem empty_cart_download (db : Db) (u : Nat)
    (h : ∀ p ∈ db.cart, p.1 ≠ u) :
    download_shopping_cart db u = .emptyError ∧
    ∀ lines, download_shopping_cart db u ≠ .pdf lines := by
  have hc : ¬ (db.cart.any (fun p => p.1 == u) = true) := by
    intro hc
    rcases List.any_eq_true.1 hc with ⟨p, hp, hpu⟩
    exact h p hp (by simpa using hpu)
  have hd : download_shopping_cart db u = .emptyError := by
    simp only [download_shopping_cart]
    rw [if_neg hc]
  refine ⟨hd, fun lines hcontr => ?_⟩
  rw [hd] at hcontr
  exact CartDownload.noConfusion hcontr

/-- Witness for C7: user 1 has an empty cart in `dbEmptyCart`, and the
download endpoint answers with the empty-cart error signal. -/
theorem empty_cart_download_witness :
    download_shopping_cart dbEmptyCart 1 = .emptyError :=
  (empty_cart_download dbEmptyCart 1 (by decide)).1

/-- C3: for each relationship add operation (favorite, shopping-cart entry,
subscription), an already existing (user, target) pair is rejected with the
duplicate-insert error and nothing is inserted; adding the same favorite
twice succeeds the first time and is rejected the second time. -/
theorem duplicate_add_rejected (recipes users : List Nat)
    (favs cart subs : List (Nat × Nat)) (u rid a : Nat)
    (hr : rid ∈ recipes) (ha : a ∈ users) :
    ((u, rid) ∈ favs →
      add_to_favorite recipes favs u rid = .error .conflict) ∧
    ((u, rid) ∈ cart →
      add_to_shopping_cart recipes cart u rid = .error .conflict) ∧
    ((u, a) ∈ subs →
      manage_subscription_create users subs u a = .error .conflict) ∧
    ((u, rid) ∉ favs →
      add_to_favorite recipes favs u rid = .ok (favs ++ [(u, rid)]) ∧
      add_to_favorite recipes (favs ++ [(u, rid)]) u rid =
        .error .conflict) := by
  refine ⟨fun hm => ?_, fun hm => ?_, fun hm => ?_, fun hn => ⟨?_, ?_⟩⟩
  · simp only [add_to_favorite]
    rw [if_pos hr, if_pos hm]
  · simp only [add_to_shopping_cart]
    rw [if_pos hr, if_pos hm]
  · simp only [manage_subscription_create]
    rw [if_pos ha, if_pos hm]
  · simp only [add_to_favorite]
    rw [if_pos hr, if_neg hn]
  · simp only [add_to_favorite]
    rw [if_pos hr,
      if_pos (List.mem_append.2 (Or.inr (List.mem_singleton.2 rfl)))]

/-- Witness for C3: starting from no favorites, favoriting recipe 5 as
user 1 succeeds, and repeating the same request is rejected. -/
theorem duplicate_add_rejected_witness :
    add_to_favorite [5] [] 1 5 = .ok [(1, 5)] ∧
    add_to_favorite [5] [(1, 5)] 1 5 = .error .conflict :=
  (duplicate_add_rejected [5] [9] [] [] [] 1 5 9 (by decide)
    (by decide)).2.2.2 (by decide)

/-- C2 counterexample: removing a (user, recipe) favorite or shopping-cart
entry that does not exist does not fail with NotFound — the view filters,
deletes nothing and still answers 204 No Content with the state
unchanged. -/
theorem delete_favorite_absent_no_content :
    delete_from_favorite [] 1 2 = (204, []) ∧
    delete_from_shopping_cart [] 1 2 = (204, []) ∧
    (delete_from_favorite [] 1 2).1 ≠ 404 := by
  decide

/-- C2 (amended): the subscription remove fails with NotFound when the
(user, author) pair is absent and deletes the pair otherwise; the favorite
and shopping-cart removes answer 204 No Content unconditionally, deleting
the pair when present and leaving the table unchanged when absent. -/
theorem relationship_remove_semantics (users : List Nat)
    (subs favs cart : List (Nat × Nat)) (u a rid : Nat) (ha : a ∈ users) :
    ((u, a) ∉ subs →
      manage_subscription_delete users subs u a = .error .notFound) ∧
    ((u, a) ∈ subs →
      manage_subscription_delete users subs u a =
        .ok (subs.erase (u, a))) ∧
    ((delete_from_favorite favs u rid).1 = 204 ∧
      ((u, rid) ∉ favs → (delete_from_favorite favs u rid).2 = favs) ∧
      (u, rid) ∉ (delete_from_favorite favs u rid).2) ∧
    ((delete_from_shopping_cart cart u rid).1 = 204 ∧
      ((u, rid) ∉ cart →
        (delete_from_shopping_cart cart u rid).2 = cart) ∧
      (u, rid) ∉ (delete_from_shopping_cart cart u rid).2) := by
  refine ⟨fun hn => ?_, fun hm => ?_, ⟨rfl, fun hn => ?_, fun hmem => ?_⟩,
    ⟨rfl, fun hn => ?_, fun hmem => ?_⟩⟩
  · simp only [manage_subscription_delete]
    rw [if_pos ha, if_neg hn]
  · simp only [manage_subscription_delete]
    rw [if_pos ha, if_pos hm]
  · simp only [delete_from_favorite]
    apply List.filter_eq_self.2
    intro p hp
    have hne : p ≠ (u, rid) := fun hpe => hn (hpe ▸ hp)
    by_cases h1 : p.1 = u
    · by_cases h2 : p.2 = rid
      · exact absurd (Prod.ext_iff.2 ⟨h1, h2⟩) hne
      · simp [h2]
    · simp [h1]
  · rcases List.mem_filter.1 hmem with ⟨-, hpred⟩
    simp at hpred
  · simp only [delete_from_shopping_cart]
    apply List.filter_eq_self.2
    intro p hp
    have hne : p ≠ (u, rid) := fun hpe => hn (hpe ▸ hp)
    by_cases h1 : p.1 = u
    · by_cases h2 : p.2 = rid
      · exact absurd (Prod.ext_iff.2 ⟨h1, h2⟩) hne
      · simp [h2]
    · simp [h1]
  · rcases List.mem_filter.1 hmem with ⟨-, hpred⟩
    simp at hpred

/-- Witness for the amended C2: a present subscription is deleted, an
absent one answers NotFound, and a favorite remove answers 204 while
actually removing the pair. -/
theorem relationship_remove_semantics_witness :
    manage_subscription_delete [1, 2] [(1, 2)] 1 2 = .ok [] ∧
    manage_subscription_delete [1, 2] [] 1 2 = .error .notFound ∧
    (delete_from_favorite [(1, 5)] 1 5).1 = 204 ∧
    (1, 5) ∉ (delete_from_favorite [(1, 5)] 1 5).2 :=
  ⟨(relationship_remove_semantics [1, 2] [(1, 2)] [(1, 5)] [] 1 2 5
      (by decide)).2.1 (by decide),
    (relationship_remove_semantics [1, 2] [] [(1, 5)] [] 1 2 5
      (by decide)).1 (by decide),
    ((relationship_remove_semantics [1, 2] [(1, 2)] [(1, 5)] [] 1 2 5
      (by decide)).2.2.1).1,
    ((relationship_remove_semantics [1, 2] [(1, 2)] [(1, 5)] [] 1 2 5
      (by decide)).2.2.1).2.2⟩

/-- C8: in any subscription table reachable through the API, a user's
attempt to subscribe to themselves is rejected with the self-subscription
`ValidationError` and inserts nothing (the failing request returns no new
state). -/
theorem self_subscription_rejected (users : List Nat)
    (s : List (Nat × Nat)) (u : Nat)
    (hreach : SubReachable users s) (hu : u ∈ users) :
    manage_subscription_create users s u u = .error .validationError := by
  have hnot : (u, u) ∉ s := fun hmem =>
    subreachable_no_self hreach (u, u) hmem rfl
  simp only [manage_subscription_create]
  rw [if_pos hu, if_neg hnot]
  simp

/-- Witness for C8: after user 1 subscribes to user 2, user 1's attempt to
subscribe to themselves is rejected with the ValidationError. -/
theorem self_subscription_rejected_witness :
    manage_subscription_create [1, 2] [(1, 2)] 1 1 =
      .error .validationError :=
  self_subscription_rejected [1, 2] [(1, 2)] 1
    (SubReachable.create 1 2 [] [(1, 2)] SubReachable.nil (by decide))
    (by decide)

/-- C1: the shopping-list consolidator emits one line per distinct
(ingredient name, measurement unit) pair occurring among the cart's
ingredient lines — its keys are duplicate-free, and a line ((name, unit),
amount) appears exactly when some cart line carries that name/unit pair and
the amount is the sum of the amounts of all such lines, so two distinct
ingredient records with the same name and unit are merged. -/
theorem consolidate_merges_by_name_unit (db : Db) (u : Nat)
    (_hcart : ∃ p ∈ db.cart, p.1 = u)
    (_hwf : ∀ l ∈ db.lines, (lineKey db l).isSome) :
    ((consolidate db u).map Prod.fst).Nodup ∧
    ∀ nm un amt, ((nm, un), amt) ∈ consolidate db u ↔
      ((∃ l ∈ cartLines db u, lineKey db l = some (nm, un)) ∧
        amt = totalAmount db u (nm, un)) := by
  constructor
  · rw [consolidate]
    exact groupSum_keys_nodup _
  · intro nm un amt
    rw [consolidate, mem_iff_lookup (groupSum_keys_nodup _), groupSum_lookup]
    by_cases hex : ∃ e ∈ cartEntries db u, e.1 = (nm, un)
    · rw [if_pos hex]
      constructor
      · intro h
        refine ⟨(cartEntries_key_exists db u (nm, un)).1 hex, ?_⟩
        rw [← Option.some.inj h, cartEntries_keyAmount]
      · rintro ⟨-, rfl⟩
        rw [cartEntries_keyAmount]
    · rw [if_neg hex]
      constructor
      · intro h
        exact Option.noConfusion h
      · rintro ⟨hl, -⟩
        exact absurd ((cartEntries_key_exists db u (nm, un)).2 hl) hex

/-- Witness for C1 on `dbSalt`: two distinct ingredient records named
"Salt"/"g" with amounts 5 and 3 across the two cart recipes are merged
into the single consolidated line ("Salt", "g") with amount 8. -/
theorem consolidate_merges_by_name_unit_witness :
    (((consolidate dbSalt 7).map Prod.fst).Nodup ∧
      ∀ nm un amt, ((nm, un), amt) ∈ consolidate dbSalt 7 ↔
        ((∃ l ∈ cartLines dbSalt 7, lineKey dbSalt l = some (nm, un)) ∧
          amt = totalAmount dbSalt 7 (nm, un))) ∧
    consolidate dbSalt 7 = [(("Salt", "g"), 8)] :=
  ⟨consolidate_merges_by_name_unit dbSalt 7 ⟨(7, 10), by decide, rfl⟩
      (by decide),
    by decide⟩

theorem get_ingredients_cons (cat : List Ingredient)
    (r : IngredientInRecipe) (rows : List IngredientInRecipe) (rid : Nat) :
    get_ingredients cat (r :: rows) rid =
      (if (r.recipe == rid) = true then
        (match cat.find? (fun i => i.id == r.ingredient) with
          | some i => [(i.id, i.name, i.measurement_unit, r.amount)]
          | none => []) ++ get_ingredients cat rows rid
      else get_ingredients cat rows rid) := by
  simp only [get_ingredients, List.filter_cons]
  by_cases h : (r.recipe == rid) = true
  · rw [if_pos h, if_pos h, List.filterMap_cons]
    cases cat.find? (fun i => i.id == r.ingredient) <;> simp
  · rw [if_neg h, if_neg h]

theorem get_ingredients_new_rows (cat : List Ingredient)
    (items : List IngredientItem) (rid : Nat)
    (wf : ∀ it ∈ items, ∃ i ∈ cat, i.id = it.id) :
    (get_ingredients cat
        (items.map (fun it => ⟨rid, it.id, it.amount⟩)) rid).map
      (fun x => (x.1, x.2.2.2)) =
      items.map (fun it => (it.id, it.amount)) := by
  revert wf
  induction items with
  | nil =>
      intro _
      rfl
  | cons it rest ih =>
      intro wf
      obtain ⟨i, hi, hid⟩ := wf it (List.mem_cons_self _ _)
      have hsome : (cat.find? (fun c => c.id == it.id)).isSome := by
        apply List.find?_isSome.2
        exact ⟨i, hi, by simp [hid]⟩
      obtain ⟨j, hj⟩ := Option.isSome_iff_exists.1 hsome
      have hjid : j.id = it.id := by
        simpa using List.find?_some hj
      have ih' := ih (fun r hr => wf r (List.mem_cons_of_mem _ hr))
      rw [List.map_cons, get_ingredients_cons]
      simp [hj, hjid, ih']

/-- C4: updating a recipe's ingredient list replaces it wholesale — after
`RecipeWriteSerializer.update`, the recipe's `IngredientInRecipe` rows are
exactly the rows built from the new payload, and
`RecipeReadSerializer.get_ingredients` reads back exactly the new
(ingredient id, amount) set, with no old line surviving. -/
theorem update_full_replace (cat : List Ingredient) (st : RecipeStore)
    (rid : Nat) (p : RecipePayload)
    (wf : ∀ it ∈ p.ingredients, ∃ i ∈ cat, i.id = it.id) :
    (update_recipe st rid p).rows.filter (fun r => r.recipe == rid) =
      p.ingredients.map (fun it => ⟨rid, it.id, it.amount⟩) ∧
    (get_ingredients cat (update_recipe st rid p).rows rid).map
      (fun x => (x.1, x.2.2.2)) =
      p.ingredients.map (fun it => (it.id, it.amount)) := by
  have hnew : (p.ingredients.map
      (fun it => (⟨rid, it.id, it.amount⟩ : IngredientInRecipe))).filter
      (fun r => r.recipe == rid) =
      p.ingredients.map (fun it => ⟨rid, it.id, it.amount⟩) := by
    apply List.filter_eq_self.2
    intro r hr
    rcases List.mem_map.1 hr with ⟨it, -, rfl⟩
    simp
  have hold : (st.rows.filter (fun r => !(r.recipe == rid))).filter
      (fun r => r.recipe == rid) = [] := by
    apply List.filter_eq_nil_iff.2
    intro r hr
    have hpred := (List.mem_filter.1 hr).2
    simp only [Bool.not_eq_true'] at hpred
    simp [hpred]
  have h1 : (update_recipe st rid p).rows.filter
      (fun r => r.recipe == rid) =
      p.ingredients.map (fun it => ⟨rid, it.id, it.amount⟩) := by
    simp only [update_recipe, update_ingredients_amounts]
    rw [List.filter_append, hold, hnew, List.nil_append]
  refine ⟨h1, ?_⟩
  rw [get_ingredients, h1, ← hnew, ← get_ingredients]
  exact get_ingredients_new_rows cat p.ingredients rid wf

/-- Witness for C4: recipe 5's old line (ingredient 1, amount 4) is gone
after the update and exactly the new line (ingredient 2, amount 7)
remains, also through the read-back serializer. -/
theorem update_full_replace_witness :
    (update_recipe ⟨[(5, [3])], [⟨5, 1, 4⟩, ⟨6, 9, 9⟩]⟩ 5
        ⟨[3], [⟨2, 7⟩]⟩).rows.filter (fun r => r.recipe == 5) =
      [⟨5, 2, 7⟩] ∧
    (get_ingredients [⟨1, "Salt", "g"⟩, ⟨2, "Pepper", "g"⟩]
        (update_recipe ⟨[(5, [3])], [⟨5, 1, 4⟩, ⟨6, 9, 9⟩]⟩ 5
          ⟨[3], [⟨2, 7⟩]⟩).rows 5).map (fun x => (x.1, x.2.2.2)) =
      [(2, 7)] :=
  update_full_replace [⟨1, "Salt", "g"⟩, ⟨2, "Pepper", "g"⟩]
    ⟨[(5, [3])], [⟨5, 1, 4⟩, ⟨6, 9, 9⟩]⟩ 5 ⟨[3], [⟨2, 7⟩]⟩ (by decide)

/-- C5: creating a recipe under a fresh id from a valid payload and
reading it back yields exactly the payload's tag-id list and exactly its
(ingredient id, amount) list — in particular equal as unordered sets. -/
theorem create_read_back (cat : List Ingredient) (st : RecipeStore)
    (newId : Nat) (p : RecipePayload)
    (hfresh : ∀ r ∈ st.rows, r.recipe ≠ newId)
    (wf : ∀ it ∈ p.ingredients, ∃ i ∈ cat, i.id = it.id) :
    read_tags (create_recipe st newId p) newId = p.tags ∧
    (get_ingredients cat (create_recipe st newId p).rows newId).map
      (fun x => (x.1, x.2.2.2)) =
      p.ingredients.map (fun it => (it.id, it.amount)) := by
  constructor
  · simp only [read_tags, create_recipe]
    rw [List.find?_cons_of_pos _ (by simp)]
  · have hold : st.rows.filter (fun r => r.recipe == newId) = [] := by
      apply List.filter_eq_nil_iff.2
      intro r hr
      simp [hfresh r hr]
    have hnew : (p.ingredients.map
        (fun it =>
          (⟨newId, it.id, it.amount⟩ : IngredientInRecipe))).filter
        (fun r => r.recipe == newId) =
        p.ingredients.map (fun it => ⟨newId, it.id, it.amount⟩) := by
      apply List.filter_eq_self.2
      intro r hr
      rcases List.mem_map.1 hr with ⟨it, -, rfl⟩
      simp
    have h1 : (create_recipe st newId p).rows.filter
        (fun r => r.recipe == newId) =
        p.ingredients.map (fun it => ⟨newId, it.id, it.amount⟩) := by
      simp only [create_recipe, create_ingredients_amounts]
      rw [List.filter_append, hold, hnew, List.nil_append]
    rw [get_ingredients, h1, ← hnew, ← get_ingredients]
    exact get_ingredients_new_rows cat p.ingredients newId wf

/-- Witness for C5: creating recipe 20 with tag 3 and ingredient line
(2, 7) on a store holding unrelated rows reads back exactly those. -/
theorem create_read_back_witness :
    read_tags (create_recipe ⟨[(5, [4])], [⟨5, 1, 4⟩]⟩ 20
      ⟨[3], [⟨2, 7⟩]⟩) 20 = [3] ∧
    (get_ingredients [⟨1, "Salt", "g"⟩, ⟨2, "Pepper", "g"⟩]
        (create_recipe ⟨[(5, [4])], [⟨5, 1, 4⟩]⟩ 20
          ⟨[3], [⟨2, 7⟩]⟩).rows 20).map (fun x => (x.1, x.2.2.2)) =
      [(2, 7)] :=
  create_read_back [⟨1, "Salt", "g"⟩, ⟨2, "Pepper", "g"⟩]
    ⟨[(5, [4])], [⟨5, 1, 4⟩]⟩ 20 ⟨[3], [⟨2, 7⟩]⟩ (by decide) (by decide)

theorem validate_ingredients_go_ok (cat : List Ingredient) :
    ∀ (seen : List Nat) (items : List IngredientItem),
      validate_ingredients_go cat seen items = .ok () ↔
        ((∀ it ∈ items, ∃ i ∈ cat, i.id = it.id) ∧
          (items.map IngredientItem.id).Nodup ∧
          ∀ it ∈ items, it.id ∉ seen) := by
  intro seen items
  induction items generalizing seen with
  | nil => simp [validate_ingredients_go]
  | cons it rest ih =>
      cases hfind : cat.find? (fun i => i.id == it.id) with
      | none =>
          simp only [validate_ingredients_go, hfind]
          have hno : ¬ ∃ i ∈ cat, i.id = it.id := by
            rintro ⟨i, hi, hid⟩
            have := List.find?_eq_none.1 hfind i hi
            simp [hid] at this
          constructor
          · intro h
            exact Except.noConfusion h
          · rintro ⟨hall, -, -⟩
            exact absurd (hall it (List.mem_cons_self _ _)) hno
      | some ing =>
          simp only [validate_ingredients_go, hfind]
          have hingid : ing.id = it.id := by
            simpa using List.find?_some hfind
          have hmem : ing ∈ cat := List.mem_of_find?_eq_some hfind
          by_cases hseen : ing.id ∈ seen
          · rw [if_pos hseen]
            constructor
            · intro h
              exact Except.noConfusion h
            · rintro ⟨-, -, hdisj⟩
              exact absurd (hingid ▸ hseen)
                (hdisj it (List.mem_cons_self _ _))
          · rw [if_neg hseen, ih (ing.id :: seen)]
            constructor
            · rintro ⟨hall, hnodup, hdisj⟩
              refine ⟨?_, ?_, ?_⟩
              · intro x hx
                rcases List.mem_cons.1 hx with rfl | hx'
                · exact ⟨ing, hmem, hingid⟩
                · exact hall x hx'
              · simp only [List.map_cons, List.nodup_cons]
                refine ⟨?_, hnodup⟩
                intro hmemid
                rcases List.mem_map.1 hmemid with ⟨r, hr, hrid⟩
                apply hdisj r hr
                rw [hrid, ← hingid]
                exact List.mem_cons_self _ _
              · intro x hx
                rcases List.mem_cons.1 hx with rfl | hx'
                · exact hingid ▸ hseen
                · exact fun hc =>
                    hdisj x hx' (List.mem_cons_of_mem _ hc)
            · rintro ⟨hall, hnodup, hdisj⟩
              simp only [List.map_cons, List.nodup_cons] at hnodup
              refine ⟨fun x hx => hall x (List.mem_cons_of_mem _ hx),
                hnodup.2, ?_⟩
              intro x hx hc
              rcases List.mem_cons.1 hc with hc' | hc'
              · apply hnodup.1
                have hxid : x.id = it.id := by rw [hc', hingid]
                exact hxid ▸ List.mem_map_of_mem IngredientItem.id hx
              · exact hdisj x (List.mem_cons_of_mem _ hx) hc'

theorem validate_ingredients_go_notFound (cat : List Ingredient) :
    ∀ (seen : List Nat) (items : List IngredientItem),
      (items.map IngredientItem.id).Nodup →
      (∀ it ∈ items, it.id ∉ seen) →
      (∃ it ∈ items, ∀ i ∈ cat, i.id ≠ it.id) →
      validate_ingredients_go cat seen items = .error .notFound := by
  intro seen items
  induction items generalizing seen with
  | nil =>
      rintro - - ⟨it, hit, -⟩
      exact absurd hit (List.not_mem_nil it)
  | cons it rest ih =>
      intro hnodup hdisj hmiss
      cases hfind : cat.find? (fun i => i.id == it.id) with
      | none => simp [validate_ingredients_go, hfind]
      | some ing =>
          simp only [validate_ingredients_go, hfind]
          have hingid : ing.id = it.id := by
            simpa using List.find?_some hfind
          have hmem : ing ∈ cat := List.mem_of_find?_eq_some hfind
          have hseen : ing.id ∉ seen := by
            rw [hingid]
            exact hdisj it (List.mem_cons_self _ _)
          rw [if_neg hseen]
          rcases hmiss with ⟨x, hx, hxmiss⟩
          rcases List.mem_cons.1 hx with rfl | hx'
          · exact absurd hingid (hxmiss ing hmem)
          · simp only [List.map_cons, List.nodup_cons] at hnodup
            apply ih
            · exact hnodup.2
            · intro y hy hc
              rcases List.mem_cons.1 hc with hc' | hc'
              · apply hnodup.1
                exact (hc'.trans hingid) ▸
                  List.mem_map_of_mem IngredientItem.id hy
              · exact hdisj y (List.mem_cons_of_mem _ hy) hc'
            · exact ⟨x, hx', hxmiss⟩

theorem validate_ingredients_go_total (cat : List Ingredient) :
    ∀ (seen : List Nat) (items : List IngredientItem),
      (∀ it ∈ items, ∃ i ∈ cat, i.id = it.id) →
      validate_ingredients_go cat seen items = .ok () ∨
      validate_ingredients_go cat seen items =
        .error .validationError := by
  intro seen items
  induction items generalizing seen with
  | nil =>
      intro _
      exact Or.inl rfl
  | cons it rest ih =>
      intro hall
      cases hfind : cat.find? (fun i => i.id == it.id) with
      | none =>
          rcases hall it (List.mem_cons_self _ _) with ⟨i, hi, hid⟩
          have := List.find?_eq_none.1 hfind i hi
          simp [hid] at this
      | some ing =>
          simp only [validate_ingredients_go, hfind]
          by_cases hseen : ing.id ∈ seen
          · rw [if_pos hseen]
            exact Or.inr rfl
          · rw [if_neg hseen]
            exact ih (ing.id :: seen)
              (fun x hx => hall x (List.mem_cons_of_mem _ hx))

theorem validate_tags_ok (tags : List Nat) :
    validate_tags tags = .ok () ↔ tags.Nodup := by
  simp only [validate_tags]
  by_cases h : tags.any (fun t => decide (1 < tags.count t)) = true
  · rw [if_pos h]
    constructor
    · intro hc
      exact Except.noConfusion hc
    · intro hnodup
      rcases List.any_eq_true.1 h with ⟨t, ht, hcount⟩
      have hle := List.nodup_iff_count_le_one.1 hnodup t
      simp only [decide_eq_true_eq] at hcount
      omega
  · rw [if_neg h]
    constructor
    · intro _
      rw [List.nodup_iff_count_le_one]
      intro a
      by_contra hcontra
      push_neg at hcontra
      apply h
      apply List.any_eq_true.2
      refine ⟨a, ?_, by simpa using hcontra⟩
      have : 0 < tags.count a := by omega
      exact List.count_pos_iff.1 this
    · intro _
      rfl

theorem validate_tags_dup (tags : List Nat) (h : ¬ tags.Nodup) :
    validate_tags tags = .error .validationError := by
  simp only [validate_tags]
  rw [if_pos ?hc]
  case hc =>
    rw [List.nodup_iff_count_le_one] at h
    push_neg at h
    rcases h with ⟨a, ha⟩
    apply List.any_eq_true.2
    refine ⟨a, ?_, by simpa using ha⟩
    have : 0 < tags.count a := by omega
    exact List.count_pos_iff.1 this

theorem run_validation_ingredientsOk (tagCat : List Nat)
    (cat : List Ingredient) (p : RecipePayload)
    (h1 : p.ingredients ≠ [])
    (h2 : ∀ it ∈ p.ingredients, 1 ≤ it.amount ∧ it.amount ≤ 32767) :
    run_validation tagCat cat p =
      (match validate_ingredients_go cat [] p.ingredients with
      | .error .notFound => .error .notFound
      | .error .validationError => .error .validationError
      | .ok _ =>
          if p.tags.isEmpty then .error .validationError
          else if p.tags.any (fun t => !(tagCat.contains t)) then
            .error .validationError
          else
            match validate_tags p.tags with
            | .error e => .error e
            | .ok _ => .ok p) := by
  have hc1 : ¬ (p.ingredients.isEmpty = true) := fun hc =>
    h1 (List.isEmpty_iff.1 hc)
  have hc2 : ¬ (p.ingredients.any
      (fun it => it.amount ≤ 0 || 32767 < it.amount) = true) := by
    intro hc
    rcases List.any_eq_true.1 hc with ⟨it, hit, hd⟩
    simp only [Bool.or_eq_true, decide_eq_true_eq] at hd
    have := h2 it hit
    omega
  simp only [run_validation]
  rw [if_neg hc1, if_neg hc2]

theorem run_validation_ingredients_field_fail (tagCat : List Nat)
    (cat : List Ingredient) (p : RecipePayload)
    (h : p.ingredients = [] ∨
      ∃ it ∈ p.ingredients, it.amount < 1 ∨ 32767 < it.amount) :
    run_validation tagCat cat p = .error .validationError := by
  simp only [run_validation]
  by_cases h1 : p.ingredients.isEmpty = true
  · rw [if_pos h1]
  · rw [if_neg h1]
    by_cases h2 : p.ingredients.any
        (fun it => it.amount ≤ 0 || 32767 < it.amount) = true
    · rw [if_pos h2]
    · exfalso
      rcases h with h | ⟨it, hit, hor⟩
      · exact h1 (List.isEmpty_iff.2 h)
      · apply h2
        refine List.any_eq_true.2 ⟨it, hit, ?_⟩
        simp only [Bool.or_eq_true, decide_eq_true_eq]
        omega

theorem run_validation_tagsStage (tagCat : List Nat)
    (cat : List Ingredient) (p : RecipePayload)
    (h1 : p.ingredients ≠ [])
    (h2 : ∀ it ∈ p.ingredients, 1 ≤ it.amount ∧ it.amount ≤ 32767)
    (hgo : validate_ingredients_go cat [] p.ingredients = .ok ()) :
    run_validation tagCat cat p =
      (if p.tags.isEmpty then .error .validationError
      else if p.tags.any (fun t => !(tagCat.contains t)) then
        .error .validationError
      else
        match validate_tags p.tags with
        | .error e => .error e
        | .ok _ => .ok p) := by
  rw [run_validation_ingredientsOk tagCat cat p h1 h2, hgo]

/-- C6 (amended): recipe write validation proceeds in field order, with
the ingredients field before the tags field.  An empty ingredient list or
an amount outside 1..32767 is a ValidationError; with those checks passed,
the ingredient-id loop runs before any tag check, so (the ids being
duplicate-free up to that point) a referenced ingredient id missing from
the catalog fails with NotFound regardless of the tag list, while a
duplicate ingredient id is a ValidationError.  Only with the whole
ingredients stage clean do the tag checks decide: an empty tag list, a tag
id missing from the tag catalog, or a duplicate tag id is a
ValidationError.  A payload passing all these checks is accepted. -/
theorem run_validation_characterization (tagCat : List Nat)
    (cat : List Ingredient) (p : RecipePayload) :
    (run_validation tagCat cat p = .ok p ↔
      (p.ingredients ≠ [] ∧
        (∀ it ∈ p.ingredients, 1 ≤ it.amount ∧ it.amount ≤ 32767) ∧
        (∀ it ∈ p.ingredients, ∃ i ∈ cat, i.id = it.id) ∧
        (p.ingredients.map IngredientItem.id).Nodup ∧
        p.tags ≠ [] ∧ (∀ t ∈ p.tags, t ∈ tagCat) ∧ p.tags.Nodup)) ∧
    ((p.ingredients = [] ∨
        (∃ it ∈ p.ingredients, it.amount < 1 ∨ 32767 < it.amount)) →
      run_validation tagCat cat p = .error .validationError) ∧
    (p.ingredients ≠ [] →
      (∀ it ∈ p.ingredients, 1 ≤ it.amount ∧ it.amount ≤ 32767) →
      (p.ingredients.map IngredientItem.id).Nodup →
      (∃ it ∈ p.ingredients, ∀ i ∈ cat, i.id ≠ it.id) →
      run_validation tagCat cat p = .error .notFound) ∧
    (p.ingredients ≠ [] →
      (∀ it ∈ p.ingredients, 1 ≤ it.amount ∧ it.amount ≤ 32767) →
      (∀ it ∈ p.ingredients, ∃ i ∈ cat, i.id = it.id) →
      (¬ (p.ingredients.map IngredientItem.id).Nodup ∨ p.tags = [] ∨
        (∃ t ∈ p.tags, t ∉ tagCat) ∨ ¬ p.tags.Nodup) →
      run_validation tagCat cat p = .error .validationError) := by
  refine ⟨⟨?_, ?_⟩,
    run_validation_ingredients_field_fail tagCat cat p, ?_, ?_⟩
  · intro hok
    have h1 : p.ingredients ≠ [] := by
      intro hc
      rw [run_validation_ingredients_field_fail tagCat cat p
        (Or.inl hc)] at hok
      exact Except.noConfusion hok
    have h2 : ∀ it ∈ p.ingredients,
        1 ≤ it.amount ∧ it.amount ≤ 32767 := by
      intro it hit
      by_contra hc
      have hor : it.amount < 1 ∨ 32767 < it.amount := by omega
      rw [run_validation_ingredients_field_fail tagCat cat p
        (Or.inr ⟨it, hit, hor⟩)] at hok
      exact Except.noConfusion hok
    rw [run_validation_ingredientsOk tagCat cat p h1 h2] at hok
    cases hgo : validate_ingredients_go cat [] p.ingredients with
    | error e =>
        rw [hgo] at hok
        cases e <;> simp at hok
    | ok u =>
        cases u
        rw [hgo] at hok
        by_cases h3 : p.tags.isEmpty = true
        · rw [if_pos h3] at hok
          simp at hok
        · rw [if_neg h3] at hok
          by_cases h4 : p.tags.any (fun t => !(tagCat.contains t)) = true
          · rw [if_pos h4] at hok
            simp at hok
          · rw [if_neg h4] at hok
            cases htags : validate_tags p.tags with
            | error e =>
                rw [htags] at hok
                simp at hok
            | ok u2 =>
                cases u2
                have hgo_ok := (validate_ingredients_go_ok cat []
                  p.ingredients).1 hgo
                refine ⟨h1, h2, hgo_ok.1, hgo_ok.2.1,
                  fun hc => h3 (List.isEmpty_iff.2 hc), ?_,
                  (validate_tags_ok p.tags).1 htags⟩
                intro t ht
                by_contra hc
                apply h4
                refine List.any_eq_true.2 ⟨t, ht, ?_⟩
                simp only [Bool.not_eq_true']
                cases hcon : tagCat.contains t with
                | false => rfl
                | true =>
                    have hcon' : List.elem t tagCat = true := hcon
                    exact absurd (List.elem_iff.1 hcon') hc
  · rintro ⟨h1, h2, hall, hnodup, h3, h4, htag⟩
    have hgo : validate_ingredients_go cat [] p.ingredients = .ok () :=
      (validate_ingredients_go_ok cat [] p.ingredients).2
        ⟨hall, hnodup, fun it _ => List.not_mem_nil it.id⟩
    have hc3 : ¬ (p.tags.isEmpty = true) := fun hc =>
      h3 (List.isEmpty_iff.1 hc)
    have hc4 : ¬ (p.tags.any (fun t => !(tagCat.contains t)) = true) := by
      intro hc
      rcases List.any_eq_true.1 hc with ⟨t, ht, hd⟩
      simp only [Bool.not_eq_true'] at hd
      have helem : List.elem t tagCat = true := List.elem_iff.2 (h4 t ht)
      have hd' : List.elem t tagCat = false := hd
      exact Bool.noConfusion (hd'.symm.trans helem)
    rw [run_validation_tagsStage tagCat cat p h1 h2 hgo, if_neg hc3,
      if_neg hc4, (validate_tags_ok p.tags).2 htag]
  · intro h1 h2 hnodup hmiss
    rw [run_validation_ingredientsOk tagCat cat p h1 h2]
    rw [validate_ingredients_go_notFound cat [] p.ingredients hnodup
      (fun it _ => List.not_mem_nil it.id) hmiss]
  · intro h1 h2 hall hdup
    rcases validate_ingredients_go_total cat [] p.ingredients hall
      with hok | herr
    · have hgo_ok := (validate_ingredients_go_ok cat []
        p.ingredients).1 hok
      rw [run_validation_tagsStage tagCat cat p h1 h2 hok]
      rcases hdup with hdupi | h | h | hdupt
      · exact absurd hgo_ok.2.1 hdupi
      · rw [if_pos (List.isEmpty_iff.2 h)]
      · by_cases h3 : p.tags.isEmpty = true
        · rw [if_pos h3]
        · rw [if_neg h3]
          rcases h with ⟨t, ht, hnt⟩
          have hany : p.tags.any (fun t => !(tagCat.contains t)) = true := by
            refine List.any_eq_true.2 ⟨t, ht, ?_⟩
            simp only [Bool.not_eq_true']
            cases hcon : tagCat.contains t with
            | false => rfl
            | true =>
                have hcon' : List.elem t tagCat = true := hcon
                exact absurd (List.elem_iff.1 hcon') hnt
          rw [if_pos hany]
      · by_cases h3 : p.tags.isEmpty = true
        · rw [if_pos h3]
        · rw [if_neg h3]
          by_cases h4 : p.tags.any (fun t => !(tagCat.contains t)) = true
          · rw [if_pos h4]
          · rw [if_neg h4, validate_tags_dup p.tags hdupt]
    · rw [run_validation_ingredientsOk tagCat cat p h1 h2, herr]

/-- C6 counterexample: a payload whose tag and ingredient lists pass every
check listed in the claim (non-empty, duplicate-free, existing ingredient
id, amount at least 1) is still rejected with a ValidationError, because
the referenced tag id 7 does not exist in the tag catalog. -/
theorem run_validation_missing_tag_rejected :
    run_validation [] [⟨1, "Salt", "g"⟩] ⟨[7], [⟨1, 5⟩]⟩ =
      .error .validationError ∧
    ([7] : List Nat) ≠ [] ∧ ([7] : List Nat).Nodup ∧
    ([⟨1, 5⟩] : List IngredientItem) ≠ [] ∧
    (([⟨1, 5⟩] : List IngredientItem).map IngredientItem.id).Nodup ∧
    (∀ it ∈ ([⟨1, 5⟩] : List IngredientItem),
      ∃ i ∈ [(⟨1, "Salt", "g"⟩ : Ingredient)], i.id = it.id) ∧
    (∀ it ∈ ([⟨1, 5⟩] : List IngredientItem), 1 ≤ it.amount) := by
  decide

/-- Witness for the amended C6: a payload whose tag id 3 exists in the
catalog and whose single ingredient line references catalog id 1 with
amount 5 is accepted. -/
theorem run_validation_characterization_witness :
    run_validation [3] [⟨1, "Salt", "g"⟩] ⟨[3], [⟨1, 5⟩]⟩ =
      .ok ⟨[3], [⟨1, 5⟩]⟩ :=
  (run_validation_characterization [3] [⟨1, "Salt", "g"⟩]
    ⟨[3], [⟨1, 5⟩]⟩).1.2 (by decide)
